import Mathlib

/-!
Verification of the parking-slot chaincode in
`src/blockchain/Chaincode/contracts/Chain.go` (Hyperledger Fabric Go
chaincode).  The Go functions `UpdateStatus` and `GetAllSlots` are embedded
shallowly: the Fabric world state becomes a key-sorted association list, the
stub becomes an explicit record that also logs the stub operations performed,
and the fallibility of `PutState` / `GetStateByRange` is a flag of the stub.
-/

namespace Parking

/-- Mirror of the Go struct `ParkingSlot` with fields
`ID`, `Location`, `Occupied`, `Timestamp` (JSON tags
`id`, `location`, `occupied`, `timestamp`). -/
structure ParkingSlot where
  ID : String
  Location : String
  Occupied : Bool
  Timestamp : String
deriving DecidableEq, Repr

/-- Bytes stored under a key in the world state.  `slotJSON s` stands for the
JSON encoding `json.Marshal` produces for the record `s` (injective: equal
records give equal bytes and conversely); `corrupt` stands for any byte string
that does not decode into a `ParkingSlot`. -/
inductive StoredBytes where
  | slotJSON (s : ParkingSlot)
  | corrupt
deriving DecidableEq, Repr

/-- Go `json.Marshal` applied to a `ParkingSlot`.  For a struct whose fields
are `string` and `bool`, Go's encoder never returns an error, so the model is
total; the ignored error return in `slotJSON, _ := json.Marshal(slot)` is
therefore always nil. -/
def jsonMarshal (s : ParkingSlot) : StoredBytes :=
  StoredBytes.slotJSON s

/-- The zero value of the Go struct `ParkingSlot`: what
`var slot ParkingSlot` declares before `json.Unmarshal` runs. -/
def zeroSlot : ParkingSlot :=
  { ID := "", Location := "", Occupied := false, Timestamp := "" }

/-- Go `json.Unmarshal` into `var slot ParkingSlot` with the returned error
discarded, exactly as `GetAllSlots` does: a valid encoding yields the encoded
record, undecodable bytes leave the zero value in place. -/
def unmarshalSlot : StoredBytes → ParkingSlot
  | StoredBytes.slotJSON s => s
  | StoredBytes.corrupt => zeroSlot

/-- The Fabric world state: the key/value pairs in the iteration order a
range scan delivers them, which Fabric keeps sorted by key. -/
abbrev WorldState := List (String × StoredBytes)

/-- Strict key-sortedness: the invariant Fabric maintains on the world
state; it implies all keys are distinct. -/
def SortedKeys (st : WorldState) : Prop :=
  st.Pairwise (fun a b => a.1 < b.1)

/-- Semantics of the stub's `PutState` on the committed world state: replace
the value under `key` if present, otherwise insert at the key-sorted
position. -/
def putState : WorldState → String → StoredBytes → WorldState
  | [], key, v => [(key, v)]
  | (k, w) :: rest, key, v =>
    if key = k then (key, v) :: rest
    else if key < k then (key, v) :: (k, w) :: rest
    else (k, w) :: putState rest key v

/-- Read the value stored under `key`, if any. -/
def getStateVal (st : WorldState) (key : String) : Option StoredBytes :=
  (st.find? (fun e => e.1 = key)).map (fun e => e.2)

/-- Errors the chaincode interface can report to the caller. -/
inductive ChainErr where
  | serializationError
  | stateWriteError
  | stateReadError
  | deserializationError
deriving DecidableEq, Repr

/-- Stub operations, logged in order so that side effects (writes performed,
iterators opened or failing to open, entries read, iterators closed) are
observable.  `openIter` is logged only when `GetStateByRange` succeeds and a
host-side cursor exists; a failed open logs `openFail` and creates no
cursor. -/
inductive Event where
  | putKey (key : String)
  | openIter
  | openFail
  | readEntry
  | closeIter
deriving DecidableEq, Repr

/-- The transaction stub: the world state, fault flags for the fallible host
calls (`PutState` may be rejected, `GetStateByRange` may fail to open, and
`nextFailsAt = some i` makes the i-th `Next` call of a scan fail), and the
log of stub operations performed so far. -/
structure Stub where
  state : WorldState
  putOk : Bool
  openOk : Bool
  nextFailsAt : Option Nat
  ops : List Event
deriving DecidableEq, Repr

/-- One `ctx.GetStub().PutState(key, value)` call: logged always.  The Fabric
shim first rejects an empty key (`key must not be an empty string`) before
touching the state; otherwise, on success the world state is updated, and on
rejection an error is returned and the world state is untouched. -/
def putStateOp (stub : Stub) (key : String) (value : StoredBytes) :
    Option ChainErr × Stub :=
  if key = "" then
    (some ChainErr.stateWriteError, { stub with ops := stub.ops ++ [Event.putKey key] })
  else if stub.putOk then
    (none, { stub with state := putState stub.state key value,
                       ops := stub.ops ++ [Event.putKey key] })
  else
    (some ChainErr.stateWriteError, { stub with ops := stub.ops ++ [Event.putKey key] })

/-- Embedding of Go `UpdateStatus(ctx, id, occupied, location)`.
`txTimestamp` is the canonical transaction time the context offers
(`ctx.GetStub().GetTxTimestamp()`); `localNow` is what `time.Now()` returns
in the executing peer's process.  The Go body stamps the record with
`time.Now().Format(time.RFC3339)`, i.e. with `localNow`, never reading
`txTimestamp`; it marshals the record (error discarded) and returns the
result of `PutState(id, slotJSON)`. -/
def updateStatus (txTimestamp localNow : String) (stub : Stub)
    (id : String) (occupied : Bool) (location : String) :
    Option ChainErr × Stub :=
  let slot : ParkingSlot :=
    { ID := id, Location := location, Occupied := occupied, Timestamp := localNow }
  let slotJSON := jsonMarshal slot
  putStateOp stub id slotJSON

/-- Outcome of running a Go function: a normal return with a value, a normal
return with an error, or a runtime panic (e.g. a method call on a nil
interface). -/
inductive GoOutcome (α : Type) where
  | ok (val : α)
  | err (e : ChainErr)
  | panic
deriving DecidableEq, Repr

/-- The entries `GetStateByRange(startKey, endKey)` iterates over: keys in
`[startKey, endKey)`, each empty bound meaning unbounded, in state order. -/
def rangeScan (startKey endKey : String) (st : WorldState) : WorldState :=
  st.filter (fun e =>
    (startKey == "" || decide (startKey ≤ e.1)) &&
    (endKey == "" || decide (e.1 < endKey)))

/-- Embedding of Go `GetAllSlots(ctx)`.  The code discards the error of
`GetStateByRange("", "")`; if that call fails the iterator is nil and the
first `resultsIterator.HasNext()` call panics.  When an advance fails
mid-scan, `queryResponse, _ := resultsIterator.Next()` discards the error
and leaves `queryResponse` a nil `*queryresult.KV`, so the
`queryResponse.Value` dereference panics.  Otherwise the loop unmarshals
every value (error discarded, zero value kept for undecodable bytes) and
appends it; the function then returns the slice with a nil error.  It never
constructs an error value of its own. -/
def getAllSlots (stub : Stub) : GoOutcome (List ParkingSlot) :=
  if stub.openOk then
    match stub.nextFailsAt with
    | none =>
      GoOutcome.ok ((rangeScan "" "" stub.state).map (fun e => unmarshalSlot e.2))
    | some i =>
      if i < (rangeScan "" "" stub.state).length then
        GoOutcome.panic
      else
        GoOutcome.ok ((rangeScan "" "" stub.state).map (fun e => unmarshalSlot e.2))
  else
    GoOutcome.panic

/-- The stub operations `GetAllSlots` performs: open the iterator, read each
entry in range order, and (via `defer resultsIterator.Close()`) close the
iterator when the function exits.  On the advance-failure path only the
entries before the failing `Next` are read, the nil-KV dereference panics,
and the deferred `Close` still runs during the unwinding, so the close is
logged after the completed reads.  When the open call itself fails no
host-side cursor is created: only the failed open appears (the deferred
`Close` on the nil iterator then panics without releasing anything, there
being nothing to release). -/
def getAllSlotsEvents (stub : Stub) : List Event :=
  if stub.openOk then
    match stub.nextFailsAt with
    | none =>
      Event.openIter :: ((rangeScan "" "" stub.state).map (fun _ => Event.readEntry))
        ++ [Event.closeIter]
    | some i =>
      if i < (rangeScan "" "" stub.state).length then
        Event.openIter :: List.replicate i Event.readEntry ++ [Event.closeIter]
      else
        Event.openIter :: ((rangeScan "" "" stub.state).map (fun _ => Event.readEntry))
          ++ [Event.closeIter]
  else
    [Event.openFail]

/-! Basic lemmas about the store model. -/

/-- An unbounded range scan returns the whole world state in order. -/
theorem rangeScan_unbounded (st : WorldState) : rangeScan "" "" st = st := by
  simp [rangeScan]

/-- Reading back the key just written returns the value just written. -/
theorem getStateVal_putState_self (st : WorldState) (key : String)
    (v : StoredBytes) : getStateVal (putState st key v) key = some v := by
  induction st with
  | nil => simp [putState, getStateVal, List.find?]
  | cons hd tl ih =>
    obtain ⟨k, w⟩ := hd
    by_cases hEq : key = k
    · simp [putState, hEq, getStateVal, List.find?]
    · by_cases hLt : key < k
      · simp [putState, hEq, hLt, getStateVal, List.find?]
      · simpa [putState, hEq, hLt, getStateVal, List.find?,
          Ne.symm hEq] using ih

/-- Writing one key leaves the value stored under every other key
unchanged. -/
theorem getStateVal_putState_ne (st : WorldState) (key k : String)
    (v : StoredBytes) (hk : k ≠ key) :
    getStateVal (putState st key v) k = getStateVal st k := by
  have hk' : key ≠ k := Ne.symm hk
  induction st with
  | nil => simp [putState, getStateVal, List.find?, hk']
  | cons hd tl ih =>
    obtain ⟨k', w⟩ := hd
    by_cases hEq : key = k'
    · subst hEq
      simp [putState, getStateVal, List.find?, hk']
    · by_cases hLt : key < k'
      · simp [putState, hEq, hLt, getStateVal, List.find?, hk']
      · by_cases hK : k' = k
        · subst hK
          simp [putState, hEq, hLt, getStateVal, List.find?]
        · simpa [putState, hEq, hLt, getStateVal, List.find?, hK] using ih

/-- The pair just written is a member of the updated world state. -/
theorem mem_putState_self (st : WorldState) (key : String) (v : StoredBytes) :
    (key, v) ∈ putState st key v := by
  induction st with
  | nil => simp [putState]
  | cons hd tl ih =>
    obtain ⟨k, w⟩ := hd
    by_cases hEq : key = k
    · simp [putState, hEq]
    · by_cases hLt : key < k
      · simp [putState, hEq, hLt]
      · simp only [putState, if_neg hEq, if_neg hLt]
        exact List.mem_cons_of_mem _ ih

/-- Overwriting a key twice is the same as writing only the second value. -/
theorem putState_putState (st : WorldState) (key : String)
    (v1 v2 : StoredBytes) :
    putState (putState st key v1) key v2 = putState st key v2 := by
  induction st with
  | nil => simp [putState]
  | cons hd tl ih =>
    obtain ⟨k, w⟩ := hd
    by_cases hEq : key = k
    · simp [putState, hEq]
    · by_cases hLt : key < k
      · simp [putState, hEq, hLt]
      · simp [putState, hEq, hLt, ih]

/-- Keys absent from a list contribute nothing to a key filter. -/
theorem filter_key_eq_nil (st : WorldState) (key : String)
    (h : ∀ e ∈ st, e.1 ≠ key) : st.filter (fun e => e.1 == key) = [] := by
  rw [List.filter_eq_nil_iff]
  simpa using h

/-- On a key-sorted world state, a write leaves exactly one entry under the
written key. -/
theorem length_filter_putState (st : WorldState) (key : String)
    (v : StoredBytes) :
    SortedKeys st →
      ((putState st key v).filter (fun e => e.1 == key)).length = 1 := by
  induction st with
  | nil => intro _; simp [putState]
  | cons hd tl ih =>
    intro hs
    obtain ⟨k, w⟩ := hd
    rw [SortedKeys, List.pairwise_cons] at hs
    obtain ⟨hgt, htl⟩ := hs
    by_cases hEq : key = k
    · subst hEq
      have hnil : tl.filter (fun e => e.1 == key) = [] :=
        filter_key_eq_nil tl key (fun e he => ne_of_gt (hgt e he))
      simp [putState, hnil]
    · by_cases hLt : key < k
      · have hnil : tl.filter (fun e => e.1 == key) = [] :=
          filter_key_eq_nil tl key
            (fun e he => ne_of_gt (lt_trans hLt (hgt e he)))
        simp [putState, hEq, hLt, hnil, Ne.symm hEq]
      · have hk : k < key := lt_of_le_of_ne (le_of_not_lt hLt) (Ne.symm hEq)
        have h1 : k ≠ key := ne_of_lt hk
        simp [putState, hEq, hLt, h1, ih htl]

/-- A small concrete stub shared by the witness theorems: empty world state,
both host calls succeeding, empty operation log. -/
def stub0 : Stub :=
  { state := [], putOk := true, openOk := true, nextFailsAt := none, ops := [] }

/-- A concrete stub with a one-entry world state, used by witnesses. -/
def stubOne : Stub :=
  { state := [("A", StoredBytes.slotJSON zeroSlot)], putOk := true,
    openOk := true, nextFailsAt := none, ops := [] }

/-! Claim theorems. -/

/-- C1: after a successful `UpdateStatus(id, occupied, location)` (valid
non-empty id, put accepted) a subsequent `GetAllSlots()` whose host calls
succeed returns a sequence containing a record whose `ID`, `Occupied` and
`Location` equal the values just written. -/
theorem updateStatus_getAllSlots_roundtrip (txT now : String) (stub : Stub)
    (id : String) (occupied : Bool) (location : String) (hid : id ≠ "")
    (hput : stub.putOk = true) (hopen : stub.openOk = true)
    (hnext : stub.nextFailsAt = none) :
    (updateStatus txT now stub id occupied location).1 = none ∧
    ∃ slots, getAllSlots (updateStatus txT now stub id occupied location).2 =
        GoOutcome.ok slots ∧
      ∃ s ∈ slots, s.ID = id ∧ s.Occupied = occupied ∧ s.Location = location := by
  have hstate : (updateStatus txT now stub id occupied location).2.state =
      putState stub.state id
        (StoredBytes.slotJSON
          { ID := id, Location := location, Occupied := occupied, Timestamp := now }) := by
    simp [updateStatus, putStateOp, jsonMarshal, hid, hput]
  have hopen2 : (updateStatus txT now stub id occupied location).2.openOk = true := by
    simp [updateStatus, putStateOp, hid, hput, hopen]
  have hnext2 : (updateStatus txT now stub id occupied location).2.nextFailsAt = none := by
    simp [updateStatus, putStateOp, hid, hput, hnext]
  refine ⟨by simp [updateStatus, putStateOp, hid, hput], ?_⟩
  refine ⟨((updateStatus txT now stub id occupied location).2.state).map
    (fun e => unmarshalSlot e.2), ?_, ?_⟩
  · simp [getAllSlots, hopen2, hnext2, rangeScan_unbounded]
  · refine ⟨{ ID := id, Location := location, Occupied := occupied,
              Timestamp := now }, ?_, rfl, rfl, rfl⟩
    rw [hstate]
    exact List.mem_map_of_mem _ (mem_putState_self stub.state id _)

/-- C1 witness: the round-trip theorem applied to a concrete write on the
empty world state. -/
theorem updateStatus_getAllSlots_roundtrip_witness :
    ("A" : String) ≠ "" ∧ stub0.putOk = true ∧ stub0.openOk = true ∧
    stub0.nextFailsAt = none ∧
    ((updateStatus "2024-01-01T00:00:00Z" "2024-01-01T00:00:01Z" stub0
        "A" true "Lot1").1 = none ∧
      ∃ slots, getAllSlots (updateStatus "2024-01-01T00:00:00Z"
          "2024-01-01T00:00:01Z" stub0 "A" true "Lot1").2 = GoOutcome.ok slots ∧
        ∃ s ∈ slots, s.ID = "A" ∧ s.Occupied = true ∧ s.Location = "Lot1") :=
  ⟨by decide, rfl, rfl, rfl,
    updateStatus_getAllSlots_roundtrip "2024-01-01T00:00:00Z"
      "2024-01-01T00:00:01Z" stub0 "A" true "Lot1" (by decide) rfl rfl rfl⟩

/-- C2: the claim requires `GetAllSlots` to abort with `DeserializationError`
on an undecodable entry and with `StateReadError` when the scan cannot be
opened, with no partial result.  The code does neither: on a corrupt entry it
returns a normal result containing the zero-valued record, and when the open
call fails it panics on a nil iterator instead of reporting `StateReadError`. -/
theorem getAllSlots_swallows_errors :
    getAllSlots { state := [("S1", StoredBytes.corrupt)], putOk := true,
                  openOk := true, nextFailsAt := none, ops := [] } =
      GoOutcome.ok [zeroSlot] ∧
    getAllSlots { state := [("S1", StoredBytes.slotJSON zeroSlot)],
                  putOk := true, openOk := false, nextFailsAt := none,
                  ops := [] } =
      GoOutcome.panic :=
  ⟨rfl, rfl⟩

/-- C3: when the key-value put is rejected, `UpdateStatus` returns the
write failure to the caller and the world state is unchanged.  (The
serialization clause of the claim is vacuous: `json.Marshal` cannot fail on
this record type, see the C9 theorem.) -/
theorem updateStatus_write_failure_surfaced (txT now : String) (stub : Stub)
    (id : String) (occupied : Bool) (location : String)
    (hput : stub.putOk = false) :
    (updateStatus txT now stub id occupied location).1 =
      some ChainErr.stateWriteError ∧
    ((updateStatus txT now stub id occupied location).2).state = stub.state := by
  by_cases hid : id = ""
  · simp [updateStatus, putStateOp, hid]
  · simp [updateStatus, putStateOp, hid, hput]

/-- C3 witness: a rejected put on a concrete stub. -/
theorem updateStatus_write_failure_surfaced_witness :
    ({ state := [], putOk := false, openOk := true, nextFailsAt := none,
       ops := [] } : Stub).putOk = false ∧
    ((updateStatus "T" "N"
        { state := [], putOk := false, openOk := true, nextFailsAt := none,
          ops := [] }
        "A" true "Lot1").1 = some ChainErr.stateWriteError ∧
      ((updateStatus "T" "N"
        { state := [], putOk := false, openOk := true, nextFailsAt := none,
          ops := [] }
        "A" true "Lot1").2).state = []) :=
  ⟨rfl,
    updateStatus_write_failure_surfaced "T" "N"
      { state := [], putOk := false, openOk := true, nextFailsAt := none,
        ops := [] }
      "A" true "Lot1" rfl⟩

/-- C4: the claim says two executions in the same transaction context (same
canonical transaction time) write byte-identical values.  The code stamps the
record with `time.Now()`, so with the same canonical transaction time but
local clocks one second apart the written values differ. -/
theorem updateStatus_uses_local_clock :
    (updateStatus "2024-01-01T00:00:00Z" "2024-01-01T00:00:05Z" stub0
        "A" true "Lot1").2.state ≠
    (updateStatus "2024-01-01T00:00:00Z" "2024-01-01T00:00:06Z" stub0
        "A" true "Lot1").2.state := by
  decide

/-- C5: two successive `UpdateStatus` calls for the same id leave exactly one
record in the world state under that id, and it is the full record built from
the second call's arguments (the whole record is replaced, not merged). -/
theorem updateStatus_last_write_wins (txT now1 now2 : String) (stub : Stub)
    (id : String) (o1 o2 : Bool) (l1 l2 : String) (hid : id ≠ "")
    (hs : SortedKeys stub.state) (hput : stub.putOk = true) :
    ((((updateStatus txT now2 (updateStatus txT now1 stub id o1 l1).2
          id o2 l2).2).state.filter (fun e => e.1 == id)).length = 1) ∧
    getStateVal ((updateStatus txT now2 (updateStatus txT now1 stub id o1 l1).2
        id o2 l2).2).state id =
      some (StoredBytes.slotJSON
        { ID := id, Location := l2, Occupied := o2, Timestamp := now2 }) := by
  have hstate : ((updateStatus txT now2 (updateStatus txT now1 stub id o1 l1).2
      id o2 l2).2).state =
      putState stub.state id (StoredBytes.slotJSON
        { ID := id, Location := l2, Occupied := o2, Timestamp := now2 }) := by
    simp [updateStatus, putStateOp, jsonMarshal, hid, hput, putState_putState]
  rw [hstate]
  exact ⟨length_filter_putState stub.state id _ hs,
    getStateVal_putState_self stub.state id _⟩

/-- C5 witness: two concrete writes to the same id on the empty state. -/
theorem updateStatus_last_write_wins_witness :
    ("A" : String) ≠ "" ∧ SortedKeys stub0.state ∧ stub0.putOk = true ∧
    (((((updateStatus "T" "N2" (updateStatus "T" "N1" stub0 "A" true "L1").2
          "A" false "L2").2).state.filter (fun e => e.1 == "A")).length = 1) ∧
      getStateVal ((updateStatus "T" "N2"
          (updateStatus "T" "N1" stub0 "A" true "L1").2 "A" false "L2").2).state
          "A" =
        some (StoredBytes.slotJSON
          { ID := "A", Location := "L2", Occupied := false, Timestamp := "N2" })) :=
  ⟨by decide, List.Pairwise.nil, rfl,
    updateStatus_last_write_wins "T" "N1" "N2" stub0 "A" true false "L1" "L2"
      (by decide) List.Pairwise.nil rfl⟩

/-- C6: an `UpdateStatus` call performs exactly one stub operation, a write
under its own id (so no reads), and the value stored under every other key is
unchanged, whether or not the put succeeds. -/
theorem updateStatus_frame (txT now : String) (stub : Stub) (id : String)
    (occupied : Bool) (location : String) (k : String) (hk : k ≠ id) :
    ((updateStatus txT now stub id occupied location).2).ops =
      stub.ops ++ [Event.putKey id] ∧
    getStateVal ((updateStatus txT now stub id occupied location).2).state k =
      getStateVal stub.state k := by
  by_cases hid : id = ""
  · simp [updateStatus, putStateOp, hid]
  · by_cases hput : stub.putOk
    · refine ⟨by simp [updateStatus, putStateOp, hid, hput], ?_⟩
      have : ((updateStatus txT now stub id occupied location).2).state =
          putState stub.state id
            (StoredBytes.slotJSON
              { ID := id, Location := location, Occupied := occupied,
                Timestamp := now }) := by
        simp [updateStatus, putStateOp, jsonMarshal, hid, hput]
      rw [this]
      exact getStateVal_putState_ne stub.state id k _ hk
    · simp [updateStatus, putStateOp, hid, hput]

/-- C6 witness: writing id `"A"` leaves key `"B"` unchanged and logs exactly
one put. -/
theorem updateStatus_frame_witness :
    ("B" : String) ≠ "A" ∧
    (((updateStatus "T" "N" stub0 "A" true "Lot1").2).ops =
        stub0.ops ++ [Event.putKey "A"] ∧
      getStateVal ((updateStatus "T" "N" stub0 "A" true "Lot1").2).state "B" =
        getStateVal stub0.state "B") :=
  ⟨by decide, updateStatus_frame "T" "N" stub0 "A" true "Lot1" "B" (by decide)⟩

/-- C7: when the range scan opens, `GetAllSlots` scans the whole keyspace
(both bounds empty, so the scan is the entire state in order), returns one
`ParkingSlot` per stored entry in that order, returns the empty sequence
without failure on an empty state, and performs no writes. -/
theorem getAllSlots_full_scan (stub : Stub) (hopen : stub.openOk = true)
    (hnext : stub.nextFailsAt = none) :
    rangeScan "" "" stub.state = stub.state ∧
    getAllSlots stub =
      GoOutcome.ok (stub.state.map (fun e => unmarshalSlot e.2)) ∧
    (stub.state = [] → getAllSlots stub = GoOutcome.ok []) ∧
    (∀ k, Event.putKey k ∉ getAllSlotsEvents stub) := by
  refine ⟨rangeScan_unbounded stub.state, ?_, ?_, ?_⟩
  · simp [getAllSlots, hopen, hnext, rangeScan_unbounded]
  · intro hempty
    simp [getAllSlots, hopen, hnext, hempty, rangeScan]
  · intro k
    simp [getAllSlotsEvents, hopen, hnext, List.mem_map]

/-- C7 witness: a one-entry world state scans to exactly that record, and the
empty state scans to the empty sequence. -/
theorem getAllSlots_full_scan_witness :
    stubOne.openOk = true ∧ stubOne.nextFailsAt = none ∧
    (rangeScan "" "" stubOne.state = stubOne.state ∧
      getAllSlots stubOne =
        GoOutcome.ok (stubOne.state.map (fun e => unmarshalSlot e.2)) ∧
      (stubOne.state = [] → getAllSlots stubOne = GoOutcome.ok []) ∧
      (∀ k, Event.putKey k ∉ getAllSlotsEvents stubOne)) :=
  ⟨rfl, rfl, getAllSlots_full_scan stubOne rfl rfl⟩

/-- Every successful-open execution of `GetAllSlots` logs events of the
shape: one open, some number of entry reads, one final close. -/
theorem getAllSlotsEvents_shape (stub : Stub) (hopen : stub.openOk = true) :
    ∃ n, getAllSlotsEvents stub =
      Event.openIter :: List.replicate n Event.readEntry ++ [Event.closeIter] := by
  rw [getAllSlotsEvents, if_pos hopen]
  cases hn : stub.nextFailsAt with
  | none =>
    exact ⟨(rangeScan "" "" stub.state).length, by simp⟩
  | some i =>
    by_cases hi : i < (rangeScan "" "" stub.state).length
    · exact ⟨i, by simp [hi]⟩
    · exact ⟨(rangeScan "" "" stub.state).length, by simp [hi]⟩

/-- Counting opens, closes and the final position on the shape of a
successful-open event log. -/
theorem count_open_close_shape (n : Nat) :
    (Event.openIter :: List.replicate n Event.readEntry
        ++ [Event.closeIter]).count Event.openIter = 1 ∧
    (Event.openIter :: List.replicate n Event.readEntry
        ++ [Event.closeIter]).count Event.closeIter = 1 ∧
    (Event.openIter :: List.replicate n Event.readEntry
        ++ [Event.closeIter]).getLast? = some Event.closeIter := by
  refine ⟨?_, ?_, List.getLast?_concat _⟩ <;>
    simp [List.count_append, List.count_cons, List.count_replicate]

/-- C8: on every exit path of `GetAllSlots` no host-side cursor leaks.
Opens and closes balance on every execution: each successfully opened
iterator is closed exactly once — by the deferred `Close`, also on the
advance-failure panic path — and the close is the last operation, after all
entry reads; when the open call fails no cursor is created and none is
closed. -/
theorem getAllSlots_closes_iterator (stub : Stub) :
    (getAllSlotsEvents stub).count Event.openIter =
      (getAllSlotsEvents stub).count Event.closeIter ∧
    (getAllSlotsEvents stub).count Event.closeIter ≤ 1 ∧
    ((getAllSlotsEvents stub).getLast? = some Event.closeIter ∨
      Event.closeIter ∉ getAllSlotsEvents stub) := by
  cases hopen : stub.openOk with
  | true =>
    obtain ⟨n, hn⟩ := getAllSlotsEvents_shape stub hopen
    rw [hn]
    obtain ⟨h1, h2, h3⟩ := count_open_close_shape n
    exact ⟨h1.trans h2.symm, le_of_eq h2, Or.inl h3⟩
  | false =>
    have hev : getAllSlotsEvents stub = [Event.openFail] := by
      simp [getAllSlotsEvents, hopen]
    rw [hev]
    exact ⟨by decide, by decide, Or.inr (by decide)⟩

/-- C9: the serialization-error branch of `UpdateStatus` is unreachable:
`json.Marshal` is total on this record type, so the only possible outcomes
are success or the put's `StateWriteError`; no `SerializationError` can
ever be returned. -/
theorem updateStatus_only_write_errors (txT now : String) (stub : Stub)
    (id : String) (occupied : Bool) (location : String) :
    (updateStatus txT now stub id occupied location).1 = none ∨
    (updateStatus txT now stub id occupied location).1 =
      some ChainErr.stateWriteError := by
  by_cases hid : id = ""
  · exact Or.inr (by simp [updateStatus, putStateOp, hid])
  · by_cases hput : stub.putOk
    · exact Or.inl (by simp [updateStatus, putStateOp, hid, hput])
    · exact Or.inr (by simp [updateStatus, putStateOp, hid, hput])

/-- C10 counterexample: with the empty string as id the call does not
succeed and nothing is stored under the empty-string key — the shim's
`PutState` rejects the empty key, refuting the claim that the call proceeds
to write it. -/
theorem updateStatus_empty_id_counterexample :
    (updateStatus "2024-01-01T00:00:00Z" "2024-01-01T00:00:01Z" stub0
        "" true "Lot1").1 = some ChainErr.stateWriteError ∧
    getStateVal ((updateStatus "2024-01-01T00:00:00Z" "2024-01-01T00:00:01Z"
        stub0 "" true "Lot1").2).state "" = none := by
  decide

/-- C10 amended: `UpdateStatus` itself validates nothing — with the empty
string as id it still builds the record and issues the put, so the log grows
by exactly that put attempt — but the shim's `PutState` rejects the empty
key, so the call returns the put failure and the world state is unchanged;
no record is stored under the empty-string key. -/
theorem updateStatus_empty_id_put_attempted (txT now : String) (stub : Stub)
    (occupied : Bool) (location : String) :
    ((updateStatus txT now stub "" occupied location).2).ops =
      stub.ops ++ [Event.putKey ""] ∧
    (updateStatus txT now stub "" occupied location).1 =
      some ChainErr.stateWriteError ∧
    ((updateStatus txT now stub "" occupied location).2).state = stub.state := by
  simp [updateStatus, putStateOp]

end Parking
